import Mathlib

/-! xcassets: colour builder and asset loader

A shallow embedding of `xcassets/color_builder.go` and `xcassets/asset_loader.go`.

Conventions of the embedding.

* A Go `error` is an `Option String`: `none` is `nil`, `some msg` is an error whose
  `Error()` text is `msg`.  `fmt.Errorf("... %v", err)` is string concatenation.
* `ColorDefinition` and `Gamut` are declared outside the files at hand.  They are type
  parameters; the methods the builder calls on them are fields of `ColorDefinitionOps`
  and `GamutOps`.
* Calls that leave the program (`net/http`, `os`, `io`, `image`, `path`) are fields of
  `Sys`, each one a transition on an abstract world state.
* `log.Fatal` ends the process; a function that may reach it returns an `Outcome`.
-/

set_option autoImplicit false
set_option linter.unusedVariables false

namespace xcassets

/-- Go `error`: `none` for `nil`, otherwise the text of the error. -/
abbrev Error := Option String

/-! ## color_builder.go -/

/-- Methods of `*ColorDefinition` used by the builder (the type is declared elsewhere). -/
structure ColorDefinitionOps (D : Type) where
  /-- `d.Validate()`, the structural check of one definition -/
  Validate : D → Error
  /-- `d1.detectOverlap(d2)` -/
  detectOverlap : D → D → Error
  /-- the zero value `ColorDefinition{}` -/
  zero : D
  /-- `d.Appearance.Any()` -/
  AppearanceAny : D → D
  /-- `d.ColorSpace.SRGB()` -/
  ColorSpaceSRGB : D → D

/-- Methods of `Gamut` used by the builder (the type is declared elsewhere). -/
structure GamutOps (G : Type) where
  /-- the zero value `Gamut{}` -/
  zero : G
  /-- `g.Any()` -/
  Any : G → G

/-- The struct `ColorBuilder`. -/
structure ColorBuilder (D G : Type) where
  defs : List D
  name : String
  Gamut : G

/-- A `for _, x := range xs` loop whose body returns the first non-nil error. -/
def rangeFirstErr {α : Type} (body : α → Error) : List α → Error
  | [] => none
  | x :: xs =>
    match body x with
    | some err => some err
    | none => rangeFirstErr body xs

/-- The function `Color(name, f)`: the configuration function `f` is received and not called. -/
def Color {D G : Type} (gops : GamutOps G) (name : String)
    (f : ColorBuilder D G → ColorBuilder D G) : ColorBuilder D G :=
  let b : ColorBuilder D G := { name := name, defs := [], Gamut := gops.zero }
  { b with Gamut := gops.Any b.Gamut }

/-- The method `(*ColorBuilder).Color(f)`: a definition with the defaults is appended, then
configured in place by `f`. -/
def ColorBuilder.Color {D G : Type} (ops : ColorDefinitionOps D) (b : ColorBuilder D G)
    (f : D → D) : ColorBuilder D G :=
  let d := ops.zero
  let d := ops.AppearanceAny d
  let d := ops.ColorSpaceSRGB d
  { b with defs := b.defs ++ [f d] }

/-- The method `(*ColorBuilder).Validate()`. -/
def ColorBuilder.Validate {D G : Type} (ops : ColorDefinitionOps D) (b : ColorBuilder D G) :
    Error :=
  if b.defs.length = 0 then
    some ("No colors defined for " ++ b.name)
  else
    match rangeFirstErr (fun d => (ops.Validate d).map ("Invalid color definition: " ++ ·))
        b.defs with
    | some err => some err
    | none =>
      rangeFirstErr (fun d1 => rangeFirstErr (fun d2 =>
        (ops.detectOverlap d1 d2).map ("Overlapping color definitions: " ++ ·)) b.defs) b.defs

/-! ### The manifest types and their `encoding/json` form

`json.Marshal` writes a struct as an object whose members follow the declaration order of
the fields and are named by the `json:"..."` tags.  Each struct below has a `fields` table
(tag, encoded value) read off its declaration.  Slices are lists (a nil slice, which
`encoding/json` writes as `null`, is not represented: `Build` marshals a non-nil slice). -/

/-- One hexadecimal digit, lower case. -/
def hexDigit (n : Nat) : Char :=
  "0123456789abcdef".toList.getD (n % 16) '0'

/-- The escape `\u00XX` and friends: a backslash, `u` and four hexadecimal digits. -/
def unicodeEscape (n : Nat) : List Char :=
  ['\\', 'u', hexDigit (n / 4096), hexDigit (n / 256), hexDigit (n / 16), hexDigit n]

/-- How `encoding/json` writes one character of a string (HTML escaping on, as in
`json.Marshal`). -/
def escapeChar (c : Char) : List Char :=
  if c = '"' then ['\\', '"']
  else if c = '\\' then ['\\', '\\']
  else if c = '\n' then ['\\', 'n']
  else if c = '\r' then ['\\', 'r']
  else if c = '\t' then ['\\', 't']
  else if c.toNat < 32 ∨ c = '<' ∨ c = '>' ∨ c = '&' ∨ c.toNat = 8232 ∨ c.toNat = 8233 then
    unicodeEscape c.toNat
  else [c]

/-- A Go string as a JSON string literal. -/
def encodeString (s : String) : String :=
  String.mk ('"' :: (s.toList.flatMap escapeChar ++ ['"']))

/-- A Go `int` as a JSON number. -/
def encodeInt (n : Int) : String := toString n

/-- A Go `bool` as a JSON literal. -/
def encodeBool (b : Bool) : String := if b then "true" else "false"

/-- A Go `float64` as a JSON number; `encoding/json` rejects NaN and the infinities.  The
decimal formatting of a finite value (`strconv`) is the parameter `fmt`. -/
def encodeFloat (fmt : Float → String) (x : Float) : Except String String :=
  if x.isNaN || x.isInf then .error ("json: unsupported value: " ++ fmt x) else .ok (fmt x)

/-- A JSON object from the table of its members. -/
def encodeObject (fields : List (String × String)) : String :=
  "\x7b" ++ ",".intercalate (fields.map fun kv => encodeString kv.1 ++ ":" ++ kv.2) ++ "\x7d"

/-- A JSON array from its encoded elements. -/
def encodeArray (elems : List String) : String :=
  "[" ++ ",".intercalate elems ++ "]"

/-- Encode every element of a slice, stopping at the first error. -/
def encodeAll {α : Type} (enc : α → Except String String) : List α → Except String (List String)
  | [] => .ok []
  | x :: xs =>
    match enc x with
    | .error e => .error e
    | .ok s =>
      match encodeAll enc xs with
      | .error e => .error e
      | .ok ss => .ok (s :: ss)

/-- The struct `info`.  The tag of `Author` is `json:"xcode"`. -/
structure info where
  Author : String
  Version : Int

/-- Members of an encoded `info`. -/
def info.fields (v : info) : List (String × String) :=
  [("xcode", encodeString v.Author), ("version", encodeInt v.Version)]

/-- The struct `properties`. -/
structure properties where
  Localizable : Bool

/-- Members of an encoded `properties`. -/
def properties.fields (v : properties) : List (String × String) :=
  [("localizable", encodeBool v.Localizable)]

/-- The struct `appearance`. -/
structure appearance where
  Appearance : String
  Value : String

/-- Members of an encoded `appearance`. -/
def appearance.fields (v : appearance) : List (String × String) :=
  [("appearance", encodeString v.Appearance), ("value", encodeString v.Value)]

/-- The type `appearances`, a slice of slices. -/
abbrev appearances := List (List appearance)

/-- An encoded `appearances`. -/
def appearances.encode (v : appearances) : String :=
  encodeArray (v.map fun row => encodeArray (row.map fun a => encodeObject a.fields))

/-- The struct `colorComponents`; every member but `alpha` is `omitempty`. -/
structure colorComponents where
  Alpha : Float
  Red : Float
  Green : Float
  Blue : Float
  White : Float

/-- One `float64` member: dropped when `omitempty` is set and the value is zero. -/
def floatField (fmt : Float → String) (tag : String) (omitempty : Bool) (x : Float) :
    Except String (List (String × String)) :=
  if omitempty && x == 0 then .ok []
  else
    match encodeFloat fmt x with
    | .error e => .error e
    | .ok s => .ok [(tag, s)]

/-- Members of an encoded `colorComponents`. -/
def colorComponents.fields (fmt : Float → String) (v : colorComponents) :
    Except String (List (String × String)) :=
  match floatField fmt "alpha" false v.Alpha with
  | .error e => .error e
  | .ok a =>
    match floatField fmt "red" true v.Red with
    | .error e => .error e
    | .ok r =>
      match floatField fmt "green" true v.Green with
      | .error e => .error e
      | .ok g =>
        match floatField fmt "blue" true v.Blue with
        | .error e => .error e
        | .ok b =>
          match floatField fmt "white" true v.White with
          | .error e => .error e
          | .ok w => .ok (a ++ r ++ g ++ b ++ w)

/-- The struct `color`. -/
structure color where
  ColorSpace : String
  Components : colorComponents

/-- Members of an encoded `color`. -/
def color.fields (fmt : Float → String) (v : color) : Except String (List (String × String)) :=
  match v.Components.fields fmt with
  | .error e => .error e
  | .ok cs => .ok [("color-space", encodeString v.ColorSpace), ("components", encodeObject cs)]

/-- The struct `colorContainer`. -/
structure colorContainer where
  Appearances : appearances
  Color : color
  Idiom : String

/-- Members of an encoded `colorContainer`. -/
def colorContainer.fields (fmt : Float → String) (v : colorContainer) :
    Except String (List (String × String)) :=
  match v.Color.fields fmt with
  | .error e => .error e
  | .ok c =>
    .ok [("appearances", v.Appearances.encode), ("color", encodeObject c),
      ("idiom", encodeString v.Idiom)]

/-- The struct `colorSet`. -/
structure colorSet where
  Colors : List colorContainer
  Info : info
  Properties : properties

/-- Encoded entries of the `colors` array, one per element of `Colors`, in order. -/
def colorSet.colorEntries (fmt : Float → String) (v : colorSet) : Except String (List String) :=
  encodeAll (fun c => (c.fields fmt).map encodeObject) v.Colors

/-- Members of an encoded `colorSet`. -/
def colorSet.fields (fmt : Float → String) (v : colorSet) :
    Except String (List (String × String)) :=
  match v.colorEntries fmt with
  | .error e => .error e
  | .ok cs =>
    .ok [("colors", encodeArray cs), ("info", encodeObject v.Info.fields),
      ("properties", encodeObject v.Properties.fields)]

/-- The call `json.Marshal(&colorSet)`: the text and the error. -/
def jsonMarshal (fmt : Float → String) (v : colorSet) : String × Error :=
  match v.fields fmt with
  | .error e => ("", some e)
  | .ok fs => (encodeObject fs, none)

/-- The method `(*ColorBuilder).Build()`: the `Contents.json` text and the error. -/
def ColorBuilder.Build {D G : Type} (ops : ColorDefinitionOps D) (fmt : Float → String)
    (b : ColorBuilder D G) : String × Error :=
  match b.Validate ops with
  | some err => ("", some err)
  | none =>
    let colorSet : colorSet :=
      { Info := { Author := "xcode", Version := 1 }
        Properties := { Localizable := true }
        Colors := [] }
    match jsonMarshal fmt colorSet with
    | (_, some err) => ("", some err)
    | (data, none) => (data, none)

/-- An `io.Writer`: `Write` takes the state of the writer and the bytes, and gives the new
state, the count written and the error. -/
structure Writer (σ : Type) where
  Write : σ → ByteArray → σ × Nat × Error

/-- The method `(*ColorBuilder).Write(w)`: the state of `w` afterwards and the error. -/
def ColorBuilder.Write {D G σ : Type} (ops : ColorDefinitionOps D) (fmt : Float → String)
    (b : ColorBuilder D G) (w : Writer σ) (s : σ) : σ × Error :=
  match b.Build ops fmt with
  | (_, some err) => (s, some err)
  | (data, none) =>
    match w.Write s data.toUTF8 with
    | (s1, _, err) => (s1, err)

/-- A writer that appends to a buffer and never fails (`bytes.Buffer`). -/
def bufferWriter : Writer (List UInt8) :=
  { Write := fun buf p => (buf ++ p.toList, p.size, none) }

/-! ## asset_loader.go -/

/-- The fields of `AssetSource` that the loader reads (the type is declared elsewhere). -/
structure AssetSource where
  file : String
  url : String

/-- The struct `assetLoader`. -/
structure assetLoader where
  source : AssetSource
  width : Int
  height : Int
  maxScaleFactor : Int

/-- What lies outside the program: the network, the file system, the image decoders, the
`path` helpers and the method `AssetSource.validateImage`.  Each effectful call takes the
state of the world and gives the new state with its result. -/
structure Sys where
  World : Type
  Image : Type
  Config : Type
  File : Type
  Response : Type
  /-- `http.Get(url)` -/
  httpGet : World → String → World × Except String Response
  /-- `response.Body.Close()` -/
  bodyClose : World → Response → World
  /-- `ioutil.TempFile(dir, pattern)` -/
  tempFile : World → String → String → World × Except String File
  /-- `file.Name()` -/
  fileName : File → String
  /-- `file.Close()` -/
  fileClose : World → File → World
  /-- `io.Copy(file, response.Body)`, the byte count dropped -/
  ioCopy : World → File → Response → World × Error
  /-- `os.Open(path)` -/
  osOpen : World → String → World × Except String File
  /-- `os.Remove(name)` -/
  osRemove : World → String → World
  /-- `image.Decode(file)`, the format name dropped -/
  imageDecode : World → File → World × Except String Image
  /-- `image.DecodeConfig(file)`, the format name dropped -/
  imageDecodeConfig : World → File → World × Except String Config
  /-- `path.Base` -/
  pathBase : String → String
  /-- `filepath.Base` -/
  filepathBase : String → String
  /-- `source.validateImage(config, name)` -/
  validateImage : AssetSource → Config → String → Error

/-- How a call ends: it returns to its caller, or `log.Fatal` logs the message and ends the
process with `os.Exit(1)` (deferred calls do not run). -/
inductive Outcome (α : Type) where
  | returned (a : α)
  | fatal (msg : String)

/-- The method `(*assetLoader).Key(source)`. -/
def assetLoader.Key (l : assetLoader) (source : AssetSource) : String :=
  if source.file ≠ "" then source.file
  else if source.url ≠ "" then source.url
  else ""

/-- The method `(*assetLoader).loadImageFromFile(path)`. -/
def assetLoader.loadImageFromFile (S : Sys) (l : assetLoader) (w : S.World) (path : String) :
    S.World × (Option S.Image × Error) :=
  match S.osOpen w path with
  | (w, .error err) => (w, (none, some err))
  | (w, .ok file) =>
    match S.imageDecode w file with
    | (w, .error err) => (S.fileClose w file, (none, some ("Failed to decode image: " ++ err)))
    | (w, .ok imageData) => (S.fileClose w file, (some imageData, none))

/-- The method `(*assetLoader).loadImageFromURL(url)`. -/
def assetLoader.loadImageFromURL (S : Sys) (l : assetLoader) (w : S.World) (url : String) :
    S.World × Outcome (Option S.Image × Error) :=
  match S.httpGet w url with
  | (w, .error e) => (w, .fatal e)
  | (w, .ok response) =>
    let fileName := S.pathBase url
    let path := "*_" ++ fileName
    match S.tempFile w "" path with
    | (w, .error err) => (S.bodyClose w response, .returned (none, some err))
    | (w, .ok file) =>
      match S.ioCopy w file response with
      | (w, some err) =>
        (S.bodyClose (S.fileClose w file) response, .returned (none, some err))
      | (w, none) =>
        match l.loadImageFromFile S w path with
        | (w, r) => (S.bodyClose (S.fileClose w file) response, .returned r)

/-- The method `(*assetLoader).validateFile(path)`. -/
def assetLoader.validateFile (S : Sys) (l : assetLoader) (w : S.World) (path : String) :
    S.World × Error :=
  match S.osOpen w path with
  | (w, .error err) => (w, some err)
  | (w, .ok file) =>
    match S.imageDecodeConfig w file with
    | (w, .error err) => (S.fileClose w file, some err)
    | (w, .ok image) =>
      (S.fileClose w file, S.validateImage l.source image (S.filepathBase (S.fileName file)))

/-- The method `(*assetLoader).validateURL(url)`. -/
def assetLoader.validateURL (S : Sys) (l : assetLoader) (w : S.World) (url : String) :
    S.World × Outcome Error :=
  match S.httpGet w url with
  | (w, .error e) => (w, .fatal e)
  | (w, .ok response) =>
    let fileName := S.pathBase url
    match S.tempFile w "" ("*_" ++ fileName) with
    | (w, .error err) => (S.bodyClose w response, .returned (some err))
    | (w, .ok file) =>
      let cleanup := fun (w : S.World) =>
        S.bodyClose (S.osRemove (S.fileClose w file) (S.fileName file)) response
      match S.ioCopy w file response with
      | (w, some err) => (cleanup w, .returned (some err))
      | (w, none) =>
        match l.validateFile S w (S.fileName file) with
        | (w, some err) => (cleanup w, .returned (some err))
        | (w, none) => (cleanup w, .returned none)

/-- The method `(*assetLoader).Load(source)`. -/
def assetLoader.Load (S : Sys) (l : assetLoader) (w : S.World) (source : AssetSource) :
    S.World × Outcome (Option S.Image × Error) :=
  if source.file ≠ "" then
    match l.loadImageFromFile S w source.file with
    | (w, (img, err)) => (w, .returned (img, err))
  else if l.source.url ≠ "" then
    l.loadImageFromURL S w l.source.url
  else
    (w, .returned (none, some "No image source specified"))

/-- The method `(*assetLoader).Validate()`. -/
def assetLoader.Validate (S : Sys) (l : assetLoader) (w : S.World) : S.World × Outcome Error :=
  if l.source.file ≠ "" then
    match l.validateFile S w l.source.file with
    | (w, err) => (w, .returned err)
  else if l.source.url ≠ "" then
    l.validateURL S w l.source.url
  else
    (w, .returned none)

/-! ## Sample data

Instances of the parameters, used to evaluate the definitions above on concrete inputs. -/

/-- A sample colour definition: a label and the luminosity it is restricted to (`none`
stands for any appearance). -/
structure SampleDef where
  label : String
  luminosity : Option String
deriving DecidableEq

/-- Whether two luminosity selections have a value in common. -/
def SampleDef.sameAppearance (d1 d2 : SampleDef) : Bool :=
  match d1.luminosity, d2.luminosity with
  | some a, some b => a == b
  | _, _ => true

/-- Sample methods: every definition is well formed; two definitions with different labels
overlap when their luminosity selections meet. -/
def sampleOps : ColorDefinitionOps SampleDef :=
  { Validate := fun _ => none
    detectOverlap := fun d1 d2 =>
      if d1.label ≠ d2.label ∧ d1.sameAppearance d2 then
        some (d1.label ++ " overlaps " ++ d2.label)
      else none
    zero := { label := "", luminosity := none }
    AppearanceAny := fun d => { d with luminosity := none }
    ColorSpaceSRGB := fun d => d }

/-- Sample methods whose `detectOverlap` looks at the coordinates only: two definitions
overlap when their luminosity selections meet. -/
def coordinateOps : ColorDefinitionOps SampleDef :=
  { sampleOps with
    detectOverlap := fun d1 d2 =>
      if d1.sameAppearance d2 then some (d1.label ++ " overlaps " ++ d2.label) else none }

/-- A gamut that is either untouched or set to any. -/
def sampleGamut : GamutOps Bool :=
  { zero := false, Any := fun _ => true }

/-- Definition A of the asset "Brand": light appearance. -/
def defA : SampleDef := { label := "A", luminosity := some "light" }

/-- Definition B of the asset "Brand": dark appearance. -/
def defB : SampleDef := { label := "B", luminosity := some "dark" }

/-- Definition C of the asset "Brand": any appearance. -/
def defC : SampleDef := { label := "C", luminosity := none }

/-- The asset "Brand" with the given definitions. -/
def brand (defs : List SampleDef) : ColorBuilder SampleDef Bool :=
  { name := "Brand", defs := defs, Gamut := true }

/-- The asset "Brand" as a client writes it: `Color("Brand", ...)`, then one `b.Color(...)`
call for A and one for B. -/
def brandAB : ColorBuilder SampleDef Bool :=
  ((Color sampleGamut "Brand" (fun b => b)).Color sampleOps
      (fun d => { d with label := "A", luminosity := some "light" })).Color sampleOps
    (fun d => { d with label := "B", luminosity := some "dark" })

/-- An asset with an empty name and the given definitions. -/
def unnamed (defs : List SampleDef) : ColorBuilder SampleDef Bool :=
  { name := "", defs := defs, Gamut := true }

/-- A world without network: every `http.Get` fails; the file system is empty. -/
def offlineSys : Sys :=
  { World := Unit
    Image := Unit
    Config := Unit
    File := String
    Response := Unit
    httpGet := fun w url => (w, .error ("Get " ++ url ++ ": no such host"))
    bodyClose := fun w _ => w
    tempFile := fun w _ pattern => (w, .ok pattern)
    fileName := fun f => f
    fileClose := fun w _ => w
    ioCopy := fun w _ _ => (w, none)
    osOpen := fun w path => (w, .error ("open " ++ path ++ ": no such file or directory"))
    osRemove := fun w _ => w
    imageDecode := fun w _ => (w, .ok ())
    imageDecodeConfig := fun w _ => (w, .ok ())
    pathBase := fun p => p
    filepathBase := fun p => p
    validateImage := fun _ _ _ => none }

/-- A loader whose stored source is the given one. -/
def loaderOf (source : AssetSource) : assetLoader :=
  { source := source, width := 0, height := 0, maxScaleFactor := 0 }

/-- Whether the text `e` occurs inside the message `msg`. -/
def carries (msg e : String) : Prop := e.toList <:+: msg.toList

instance (msg e : String) : Decidable (carries msg e) := by
  unfold carries; infer_instance

/-! ## Lemmas on the range loops -/

theorem rangeFirstErr_eq_none_iff {α : Type} (body : α → Error) (xs : List α) :
    rangeFirstErr body xs = none ↔ ∀ x ∈ xs, body x = none := by
  induction xs with
  | nil => simp [rangeFirstErr]
  | cons x xs ih =>
    cases hx : body x with
    | none => simp [rangeFirstErr, hx, ih]
    | some e => simp [rangeFirstErr, hx]

theorem rangeFirstErr_eq_first {α : Type} (body : α → Error) (xs : List α) (i : Nat) (x : α)
    (e : String) (hi : xs[i]? = some x) (hx : body x = some e)
    (hbefore : ∀ k y, k < i → xs[k]? = some y → body y = none) :
    rangeFirstErr body xs = some e := by
  induction xs generalizing i with
  | nil => simp at hi
  | cons a xs ih =>
    cases i with
    | zero =>
      simp at hi
      subst hi
      simp [rangeFirstErr, hx]
    | succ i =>
      have ha : body a = none := hbefore 0 a (Nat.succ_pos i) (by simp)
      simp only [rangeFirstErr, ha]
      apply ih i (by simpa using hi)
      intro k y hk hy
      exact hbefore (k + 1) y (Nat.succ_lt_succ hk) (by simpa using hy)

theorem rangeFirstErr_eq_some_mem {α : Type} (body : α → Error) (xs : List α) (e : String)
    (h : rangeFirstErr body xs = some e) : ∃ x ∈ xs, body x = some e := by
  induction xs with
  | nil => simp [rangeFirstErr] at h
  | cons a xs ih =>
    cases ha : body a with
    | some m =>
      simp only [rangeFirstErr, ha, Option.some.injEq] at h
      exact ⟨a, by simp, by rw [ha, h]⟩
    | none =>
      simp only [rangeFirstErr, ha] at h
      obtain ⟨x, hx, hb⟩ := ih h
      exact ⟨x, by simp [hx], hb⟩

theorem validate_eq_none_iff {D G : Type} (ops : ColorDefinitionOps D) (b : ColorBuilder D G) :
    b.Validate ops = none ↔
      b.defs ≠ [] ∧ (∀ d ∈ b.defs, ops.Validate d = none) ∧
        ∀ d1 ∈ b.defs, ∀ d2 ∈ b.defs, ops.detectOverlap d1 d2 = none := by
  unfold ColorBuilder.Validate
  by_cases hlen : b.defs.length = 0
  · have : b.defs = [] := List.length_eq_zero.mp hlen
    simp [this]
  · have hne : b.defs ≠ [] := fun h => hlen (by simp [h])
    simp only [hlen, if_false]
    cases hs : rangeFirstErr
        (fun d => (ops.Validate d).map ("Invalid color definition: " ++ ·)) b.defs with
    | some err =>
      have hs2 := hs
      simp only [reduceCtorEq, false_iff]
      intro h
      have := (rangeFirstErr_eq_none_iff _ b.defs).mpr
        (fun d hd => by simp [h.2.1 d hd] :
          ∀ d ∈ b.defs, (ops.Validate d).map ("Invalid color definition: " ++ ·) = none)
      rw [this] at hs2
      cases hs2
    | none =>
      have hv := (rangeFirstErr_eq_none_iff _ b.defs).mp hs
      simp only [rangeFirstErr_eq_none_iff, Option.map_eq_none'] at hv ⊢
      exact ⟨fun h => ⟨hne, hv, h⟩, fun h => h.2.2⟩

theorem build_of_valid {D G : Type} (ops : ColorDefinitionOps D) (fmt : Float → String)
    (b : ColorBuilder D G) (h : b.Validate ops = none) :
    b.Build ops fmt =
      (encodeObject
        [("colors", encodeArray []),
         ("info", encodeObject [("xcode", encodeString "xcode"), ("version", encodeInt 1)]),
         ("properties", encodeObject [("localizable", encodeBool true)])], none) := by
  simp [ColorBuilder.Build, h, jsonMarshal, colorSet.fields, colorSet.colorEntries, encodeAll,
    info.fields, properties.fields]

/-! ## The claims -/

/-- C1 (the code departs from the claim): for every builder that passes `Validate`, so one
that holds at least one definition, `Build` returns a manifest whose `colors` array is
empty, whatever the number of definitions. -/
theorem build_colors_array_empty {D G : Type} (ops : ColorDefinitionOps D)
    (fmt : Float → String) (b : ColorBuilder D G) (h : b.Validate ops = none) :
    0 < b.defs.length ∧ b.Build ops fmt = ("\x7b\"colors\":[],\"info\":\x7b\"xcode\":\"xcode\",\"version\":1\x7d,\"properties\":\x7b\"localizable\":true\x7d\x7d", none) := by
  refine ⟨?_, ?_⟩
  · exact List.length_pos.mpr ((validate_eq_none_iff ops b).mp h).1
  · rw [build_of_valid ops fmt b h]
    decide

/-- C1, evaluated: the asset "Brand", to which A and then B were added, passes `Validate`
and its manifest has no colour entry. -/
theorem build_colors_array_empty_witness :
    brandAB.defs = [defA, defB] ∧ brandAB.Validate sampleOps = none ∧
      (0 < brandAB.defs.length ∧
        brandAB.Build sampleOps toString = ("\x7b\"colors\":[],\"info\":\x7b\"xcode\":\"xcode\",\"version\":1\x7d,\"properties\":\x7b\"localizable\":true\x7d\x7d", none)) :=
  ⟨rfl, by decide, build_colors_array_empty sampleOps toString brandAB (by decide)⟩

/-- C2: when `Validate` returns the error `e`, `Build` returns the empty string with `e`,
and `Write` returns `e` and leaves every writer in the state it was in (no call of
`w.Write`, so no byte written). -/
theorem validation_failure_prevents_emission {D G : Type} (ops : ColorDefinitionOps D)
    (fmt : Float → String) (b : ColorBuilder D G) (e : String)
    (h : b.Validate ops = some e) :
    b.Build ops fmt = ("", some e) ∧
      ∀ (σ : Type) (w : Writer σ) (s : σ), b.Write ops fmt w s = (s, some e) := by
  have hb : b.Build ops fmt = ("", some e) := by simp [ColorBuilder.Build, h]
  exact ⟨hb, fun σ w s => by simp [ColorBuilder.Write, hb]⟩

/-- C2, evaluated: the asset "Brand" with A, B and C fails validation; `Build` gives the
empty string and `Write` leaves an empty buffer empty. -/
theorem validation_failure_prevents_emission_witness :
    (brand [defA, defB, defC]).Validate sampleOps
        = some "Overlapping color definitions: A overlaps C" ∧
      (brand [defA, defB, defC]).Build sampleOps toString
        = ("", some "Overlapping color definitions: A overlaps C") ∧
      (brand [defA, defB, defC]).Write sampleOps toString bufferWriter []
        = ([], some "Overlapping color definitions: A overlaps C") :=
  ⟨by decide,
    (validation_failure_prevents_emission sampleOps toString (brand [defA, defB, defC])
      "Overlapping color definitions: A overlaps C" (by decide)).1,
    (validation_failure_prevents_emission sampleOps toString (brand [defA, defB, defC])
      "Overlapping color definitions: A overlaps C" (by decide)).2 _ bufferWriter []⟩

/-- C3: a builder with zero definitions fails `Validate` with the error
"No colors defined for <name>", whatever its name and gamut. -/
theorem validate_zero_definitions {D G : Type} (ops : ColorDefinitionOps D)
    (b : ColorBuilder D G) (h : b.defs = []) :
    b.Validate ops = some ("No colors defined for " ++ b.name) := by
  simp [ColorBuilder.Validate, h]

/-- C3, evaluated on the asset "Brand" without definitions. -/
theorem validate_zero_definitions_witness :
    (brand []).defs = [] ∧ (brand []).Validate sampleOps = some "No colors defined for Brand" :=
  ⟨rfl, validate_zero_definitions sampleOps (brand []) rfl⟩

/-- C4 (the code departs from the claim): the overlap phase of `Validate` pairs each
one of the definitions with itself too; a builder with the single well-formed definition
`d` fails with the overlap error as soon as `detectOverlap` reports `(d, d)`. -/
theorem validate_compares_definition_with_itself {D G : Type} (ops : ColorDefinitionOps D)
    (b : ColorBuilder D G) (d : D) (e : String) (hdefs : b.defs = [d])
    (hvalid : ops.Validate d = none) (hself : ops.detectOverlap d d = some e) :
    b.Validate ops = some ("Overlapping color definitions: " ++ e) := by
  simp [ColorBuilder.Validate, hdefs, rangeFirstErr, hvalid, hself]

/-- C4, evaluated: the asset "Brand" with the single definition A, under a `detectOverlap`
that compares coordinates. -/
theorem validate_compares_definition_with_itself_witness :
    ((brand [defA]).defs = [defA] ∧ coordinateOps.Validate defA = none ∧
        coordinateOps.detectOverlap defA defA = some "A overlaps A") ∧
      (brand [defA]).Validate coordinateOps
        = some ("Overlapping color definitions: " ++ "A overlaps A") :=
  ⟨⟨rfl, rfl, by decide⟩,
    validate_compares_definition_with_itself coordinateOps (brand [defA]) defA "A overlaps A"
      rfl rfl (by decide)⟩

/-- C5 as stated fails: in the asset "Brand" with A (light), B (dark) and C (any), the three
are well formed and the two pairs (A, C) and (B, C) overlap, yet the error of `Validate` is
the one of (A, C) alone and does not carry the one of (B, C). -/
theorem validate_reports_first_overlap_only :
    (∀ d ∈ (brand [defA, defB, defC]).defs, sampleOps.Validate d = none) ∧
      sampleOps.detectOverlap defA defC = some "A overlaps C" ∧
      sampleOps.detectOverlap defB defC = some "B overlaps C" ∧
      sampleOps.detectOverlap defC defB = some "C overlaps B" ∧
      (brand [defA, defB, defC]).Validate sampleOps
        = some "Overlapping color definitions: A overlaps C" ∧
      ¬ carries "Overlapping color definitions: A overlaps C" "B overlaps C" ∧
      ¬ carries "Overlapping color definitions: A overlaps C" "C overlaps B" := by
  refine ⟨fun _ _ => rfl, by decide, by decide, by decide, by decide, by decide, by decide⟩

/-- C5, amended: when every definition passes its structural check, `Validate` returns the
overlap error of the first pair, in the order of the two nested loops, on which
`detectOverlap` reports an error, and of that pair only. -/
theorem validate_returns_first_overlap {D G : Type} (ops : ColorDefinitionOps D)
    (b : ColorBuilder D G) (i j : Nat) (d1 d2 : D) (e : String)
    (hvalid : ∀ d ∈ b.defs, ops.Validate d = none)
    (hi : b.defs[i]? = some d1) (hj : b.defs[j]? = some d2)
    (hoverlap : ops.detectOverlap d1 d2 = some e)
    (hbefore : ∀ k l x y, b.defs[k]? = some x → b.defs[l]? = some y →
      (k < i ∨ (k = i ∧ l < j)) → ops.detectOverlap x y = none) :
    b.Validate ops = some ("Overlapping color definitions: " ++ e) := by
  have hne : b.defs.length ≠ 0 := by
    intro h0
    have : b.defs = [] := List.length_eq_zero.mp h0
    simp [this] at hi
  have hstruct : rangeFirstErr
      (fun d => (ops.Validate d).map ("Invalid color definition: " ++ ·)) b.defs = none :=
    (rangeFirstErr_eq_none_iff _ _).mpr (fun d hd => by simp [hvalid d hd])
  simp only [ColorBuilder.Validate, hne, if_false, hstruct]
  apply rangeFirstErr_eq_first _ b.defs i d1 _ hi
  · apply rangeFirstErr_eq_first _ b.defs j d2 _ hj
    · simp [hoverlap]
    · intro l y hl hy
      simp [hbefore i l d1 y hi hy (Or.inr ⟨rfl, hl⟩)]
  · intro k x hk hx
    apply (rangeFirstErr_eq_none_iff _ _).mpr
    intro y hy
    obtain ⟨l, hl⟩ := List.getElem?_of_mem hy
    simp [hbefore k l x y hx hl (Or.inl hk)]

/-- C5, amended, evaluated on the asset "Brand" with A, B and C: the first overlapping pair
is (A, C), at positions 0 and 2. -/
theorem validate_returns_first_overlap_witness :
    (brand [defA, defB, defC]).Validate sampleOps
      = some ("Overlapping color definitions: " ++ "A overlaps C") :=
  validate_returns_first_overlap sampleOps (brand [defA, defB, defC]) 0 2 defA defC
    "A overlaps C" (fun _ _ => rfl) rfl rfl (by decide)
    (by
      intro k l x y hx hy hkl
      rcases hkl with hk | ⟨hk, hl⟩
      · exact absurd hk (Nat.not_lt_zero k)
      · subst hk
        have hx0 : x = defA := by simpa [brand] using hx.symm
        subst hx0
        have hl2 : l = 0 ∨ l = 1 := by omega
        rcases hl2 with h0 | h1
        · subst h0
          have : y = defA := by simpa [brand] using hy.symm
          subst this
          decide
        · subst h1
          have : y = defB := by simpa [brand] using hy.symm
          subst this
          decide)

/-- C6 as stated fails: a builder with an empty name and the two well-formed definitions
A (light) and B (dark), on which `detectOverlap` reports nothing, passes `Validate`. -/
theorem validate_accepts_empty_name :
    (unnamed [defA, defB]).name = "" ∧
      (∀ d ∈ (unnamed [defA, defB]).defs, sampleOps.Validate d = none) ∧
      (∀ d1 ∈ (unnamed [defA, defB]).defs, ∀ d2 ∈ (unnamed [defA, defB]).defs,
        sampleOps.detectOverlap d1 d2 = none) ∧
      (unnamed [defA, defB]).Validate sampleOps = none := by
  refine ⟨rfl, fun _ _ => rfl, ?_, by decide⟩
  intro d1 h1 d2 h2
  simp only [unnamed, List.mem_cons, List.mem_singleton, List.not_mem_nil, or_false] at h1 h2
  rcases h1 with rfl | rfl <;> rcases h2 with rfl | rfl <;> decide

/-- C6, amended: `Validate` has no check of the name.  A builder whose name is empty passes
when it holds at least one definition, each passes its structural check and `detectOverlap`
reports nothing on them; an error it returns is the no-colors error, the structural error
of a definition, or the error of a pair, never one about the name. -/
theorem validate_empty_name_unchecked {D G : Type} (ops : ColorDefinitionOps D)
    (b : ColorBuilder D G) (hname : b.name = "") :
    (b.defs ≠ [] → (∀ d ∈ b.defs, ops.Validate d = none) →
        (∀ d1 ∈ b.defs, ∀ d2 ∈ b.defs, ops.detectOverlap d1 d2 = none) →
        b.Validate ops = none) ∧
      ∀ e, b.Validate ops = some e →
        (b.defs = [] ∧ e = "No colors defined for ") ∨
        (∃ d ∈ b.defs, ∃ m, ops.Validate d = some m ∧ e = "Invalid color definition: " ++ m) ∨
        (∃ d1 ∈ b.defs, ∃ d2 ∈ b.defs, ∃ m,
          ops.detectOverlap d1 d2 = some m ∧ e = "Overlapping color definitions: " ++ m) := by
  refine ⟨fun h1 h2 h3 => (validate_eq_none_iff ops b).mpr ⟨h1, h2, h3⟩, ?_⟩
  intro e he
  unfold ColorBuilder.Validate at he
  by_cases hlen : b.defs.length = 0
  · left
    simp only [hlen, if_true, Option.some.injEq, hname] at he
    exact ⟨List.length_eq_zero.mp hlen, by simpa using he.symm⟩
  · right
    simp only [hlen, if_false] at he
    cases hs : rangeFirstErr
        (fun d => (ops.Validate d).map ("Invalid color definition: " ++ ·)) b.defs with
    | some err =>
      left
      rw [hs] at he
      simp only [Option.some.injEq] at he
      subst he
      obtain ⟨d, hd, hb⟩ := rangeFirstErr_eq_some_mem _ _ _ hs
      obtain ⟨m, hm, hme⟩ := Option.map_eq_some'.mp hb
      exact ⟨d, hd, m, hm, hme.symm⟩
    | none =>
      right
      rw [hs] at he
      obtain ⟨d1, hd1, hb1⟩ := rangeFirstErr_eq_some_mem _ _ _ he
      obtain ⟨d2, hd2, hb2⟩ := rangeFirstErr_eq_some_mem _ _ _ hb1
      obtain ⟨m, hm, hme⟩ := Option.map_eq_some'.mp hb2
      exact ⟨d1, hd1, d2, hd2, m, hm, hme.symm⟩

/-- C6, amended, evaluated on the unnamed builder holding A and B. -/
theorem validate_empty_name_unchecked_witness :
    (unnamed [defA, defB]).name = "" ∧ (unnamed [defA, defB]).Validate sampleOps = none :=
  ⟨rfl,
    (validate_empty_name_unchecked sampleOps (unnamed [defA, defB]) rfl).1 (by decide)
      (fun _ _ => rfl)
      (by
        intro d1 h1 d2 h2
        simp only [unnamed, List.mem_cons, List.mem_singleton, List.not_mem_nil, or_false]
          at h1 h2
        rcases h1 with rfl | rfl <;> rcases h2 with rfl | rfl <;> decide)⟩

/-- C7 (the code departs from the claim): when `http.Get` fails on the URL of the loader,
`loadImageFromURL` and `validateURL` end the process through `log.Fatal`, and so do `Load`
and `Validate` that reach them; no error value comes back to the caller. -/
theorem fetch_failure_ends_process (S : Sys) (l : assetLoader) (w w1 : S.World) (e : String)
    (hfile : l.source.file = "") (hurl : l.source.url ≠ "")
    (hget : S.httpGet w l.source.url = (w1, .error e)) :
    l.loadImageFromURL S w l.source.url = (w1, .fatal e) ∧
      l.validateURL S w l.source.url = (w1, .fatal e) ∧
      l.Load S w l.source = (w1, .fatal e) ∧
      l.Validate S w = (w1, .fatal e) := by
  have h1 : l.loadImageFromURL S w l.source.url = (w1, .fatal e) := by
    simp [assetLoader.loadImageFromURL, hget]
  have h2 : l.validateURL S w l.source.url = (w1, .fatal e) := by
    simp [assetLoader.validateURL, hget]
  refine ⟨h1, h2, ?_, ?_⟩
  · simp [assetLoader.Load, hfile, hurl, h1]
  · simp [assetLoader.Validate, hfile, hurl, h2]

/-- C7, evaluated: without network, fetching `https://example.com/logo.png` ends the
process. -/
theorem fetch_failure_ends_process_witness :
    (loaderOf ⟨"", "https://example.com/logo.png"⟩).loadImageFromURL offlineSys ()
        "https://example.com/logo.png"
      = ((), .fatal "Get https://example.com/logo.png: no such host") :=
  (fetch_failure_ends_process offlineSys (loaderOf ⟨"", "https://example.com/logo.png"⟩) () ()
    "Get https://example.com/logo.png: no such host" rfl (by decide) rfl).1

/-- C8: `Color(name, f)` returns a builder named `name` with zero definitions; the result
does not depend on `f`, and `Validate` on it fails with the no-colors error. -/
theorem color_returns_empty_named_builder {D G : Type} (gops : GamutOps G)
    (ops : ColorDefinitionOps D) (name : String) (f : ColorBuilder D G → ColorBuilder D G) :
    (Color gops name f).name = name ∧ (Color gops name f).defs = [] ∧
      (∀ g : ColorBuilder D G → ColorBuilder D G, Color gops name g = Color gops name f) ∧
      (Color gops name f).Validate ops = some ("No colors defined for " ++ name) := by
  refine ⟨rfl, rfl, fun _ => rfl, ?_⟩
  simp [ColorBuilder.Validate, Color]

/-- C9 (the code departs from the claim): for every builder that passes `Validate`, the
manifest has the top-level members `colors`, `info` and `properties`, and the members of
`info` are named `xcode` and `version`: there is no member `author`. -/
theorem build_info_member_is_xcode {D G : Type} (ops : ColorDefinitionOps D)
    (fmt : Float → String) (b : ColorBuilder D G) (h : b.Validate ops = none) :
    b.Build ops fmt =
        (encodeObject
          [("colors", encodeArray []),
           ("info", encodeObject (info.fields { Author := "xcode", Version := 1 })),
           ("properties", encodeObject (properties.fields { Localizable := true }))], none) ∧
      (info.fields { Author := "xcode", Version := 1 }).map Prod.fst = ["xcode", "version"] ∧
      encodeObject (info.fields { Author := "xcode", Version := 1 })
        = "\x7b\"xcode\":\"xcode\",\"version\":1\x7d" ∧
      (properties.fields { Localizable := true }).map Prod.fst = ["localizable"] := by
  refine ⟨?_, rfl, by decide, rfl⟩
  rw [build_of_valid ops fmt b h]
  rfl

/-- C9, evaluated on the asset "Brand" with the single definition A. -/
theorem build_info_member_is_xcode_witness :
    (brand [defA]).Validate sampleOps = none ∧
      ((brand [defA]).Build sampleOps toString).1
        = "\x7b\"colors\":[],\"info\":\x7b\"xcode\":\"xcode\",\"version\":1\x7d,\"properties\":\x7b\"localizable\":true\x7d\x7d" :=
  ⟨by decide, by
    rw [(build_info_member_is_xcode sampleOps toString (brand [defA]) (by decide)).1]
    decide⟩

/-- C10 (the code departs from the claim): once the file path of the argument is empty,
`Load` reads the URL stored in the loader, not the one of the argument.  With no stored
URL, a source that has a URL (a non-empty `Key`) gets "No image source specified"; with a
stored URL, the fetch is of the stored URL, also for a source whose `Key` is empty. -/
theorem load_reads_stored_url (S : Sys) (w : S.World) :
    ((loaderOf ⟨"", ""⟩).Key ⟨"", "https://example.com/logo.png"⟩
        = "https://example.com/logo.png" ∧
      (loaderOf ⟨"", ""⟩).Load S w ⟨"", "https://example.com/logo.png"⟩
        = (w, .returned (none, some "No image source specified"))) ∧
    ((loaderOf ⟨"", "https://example.com/other.png"⟩).Load S w
        ⟨"", "https://example.com/logo.png"⟩
      = (loaderOf ⟨"", "https://example.com/other.png"⟩).loadImageFromURL S w
          "https://example.com/other.png") ∧
    ((loaderOf ⟨"", "https://example.com/other.png"⟩).Key ⟨"", ""⟩ = "" ∧
      (loaderOf ⟨"", "https://example.com/other.png"⟩).Load S w ⟨"", ""⟩
        = (loaderOf ⟨"", "https://example.com/other.png"⟩).loadImageFromURL S w
            "https://example.com/other.png") := by
  refine ⟨⟨by decide, ?_⟩, ?_, by decide, ?_⟩
  · simp [assetLoader.Load, loaderOf]
  · simp [assetLoader.Load, loaderOf]
  · simp [assetLoader.Load, loaderOf]

end xcassets
